import Mathlib

/-!
Shallow embedding of the soldexer-pipes-registry service (Fastify + Drizzle +
PostgreSQL) for checking its natural-language specification.

The database is modelled as explicit lists of rows (`pipes`, `versions`) with
serial-id counters; timestamps are `Nat`; the JSONB `envSchema` document is
opaque and modelled as a `String`.  The archive store is a list of stored file
names; the success or failure of a filesystem write is passed to the operation
as an explicit `diskOk : Bool` argument (the TS code's `createWriteStream` /
`pipeline` either succeeds or throws).  Fallible operations return `Except`
together with the post-state, since the TS code performs no transaction or
compensation: a failure can leave earlier writes in place.
-/

/-- Error kinds of the service layer (spec section 7 taxonomy).
`runtimeError` stands for an uncaught JS runtime exception such as reading a
property of `undefined`. -/
inductive Err where
  | storageWriteFailed
  | pipeNotFound
  | constraintViolation
  | runtimeError
deriving DecidableEq, Repr

deriving instance DecidableEq for Except

/-- Row of the `pipes` table (src/models/pipe.model.ts). -/
structure Pipe where
  id : Nat
  name : String
  description : Option String
  createdAt : Nat
  updatedAt : Nat
deriving DecidableEq, Repr

/-- Row of the `versions` table (version.model.ts): serial id, pipe FK,
version number (globally unique plus unique per (pipeId, versionNumber)),
asset URL, opaque envSchema document, timestamps. -/
structure Version where
  id : Nat
  pipeId : Nat
  versionNumber : String
  assetUrl : String
  envSchema : String
  createdAt : Nat
  updatedAt : Nat
deriving DecidableEq, Repr

/-- Database state: both tables in insertion order plus serial counters. -/
structure DB where
  pipes : List Pipe
  versions : List Version
  nextPipeId : Nat
  nextVersionId : Nat
deriving DecidableEq, Repr

/-- Archive store state: the names of the stored files. -/
structure FS where
  files : List String
deriving DecidableEq, Repr

/-- Whole system state. -/
structure St where
  db : DB
  fs : FS
deriving DecidableEq, Repr

/-- `{pipeName}-{version}.tar`, the deterministic archive name used both by
`FileStorageService.storeFile` and by `PipeService.getPipeForDownload`. -/
def tarFileName (pipeName version : String) : String :=
  pipeName ++ "-" ++ version ++ ".tar"

/-- Case-insensitive substring test, modelling SQL `ILIKE` with the pattern
wrapped in percent signs. -/
def containsCI (hay pat : String) : Bool :=
  decide (pat.toLower.toList <:+: hay.toLower.toList)

/-- `Math.ceil (a / b)` on naturals (the `totalPages` computation). -/
def ceilDiv (a b : Nat) : Nat := (a + b - 1) / b

/-- Descending order on `createdAt`, the comparator behind
`orderBy(desc(...createdAt))`. -/
def verGe (a b : Version) : Prop := b.createdAt ≤ a.createdAt

instance : DecidableRel verGe := fun a b => Nat.decLe b.createdAt a.createdAt

instance : IsTotal Version verGe :=
  ⟨fun a b => (Nat.le_total b.createdAt a.createdAt).elim Or.inl Or.inr⟩

instance : IsTrans Version verGe :=
  ⟨fun _ _ _ hab hbc => Nat.le_trans hbc hab⟩

/-- Query options of `GET /pipes` (types/pipe.ts `PipeQueryOptions`; the
`includeVersions` flag selects `findManyWithVersions` and is modelled by
calling that function directly). -/
structure PipeQueryOptions where
  page : Option Nat := none
  limit : Option Nat := none
  search : Option String := none
deriving DecidableEq, Repr

/-- Query options of `GET /versions` (types/version.ts). -/
structure VersionQueryOptions where
  page : Option Nat := none
  limit : Option Nat := none
  pipeId : Option Nat := none
deriving DecidableEq, Repr

/-- The search filter of `findMany`/`count`: attached only when `search` is a
non-empty string (JS truthiness of `if (search)`), matching name or
description case-insensitively; a NULL description never matches. -/
def pipeMatches (search : Option String) (p : Pipe) : Bool :=
  match search with
  | none => true
  | some s =>
    if s = "" then true
    else containsCI p.name s ||
      (match p.description with
       | some d => containsCI d s
       | none => false)

namespace PipeRepo

/-- The row built by a pipe INSERT: `id` comes from the serial counter. -/
def mkPipe (db : DB) (name : String) (description : Option String) (now : Nat) : Pipe :=
  { id := db.nextPipeId, name := name, description := description,
    createdAt := now, updatedAt := now }

/-- `PipeRepository.create`: INSERT returning the new row. -/
def create (db : DB) (name : String) (description : Option String) (now : Nat) :
    Pipe × DB :=
  (mkPipe db name description now,
   { db with pipes := db.pipes ++ [mkPipe db name description now],
             nextPipeId := db.nextPipeId + 1 })

/-- `PipeRepository.findById`: first row with the id, else null. -/
def findById (db : DB) (id : Nat) : Option Pipe :=
  db.pipes.find? (fun p => p.id == id)

/-- `PipeRepository.findByName`: first row with the name, else null. -/
def findByName (db : DB) (name : String) : Option Pipe :=
  db.pipes.find? (fun p => p.name == name)

/-- `PipeRepository.findMany`: filter, order by `createdAt` descending, then
`offset ((page-1)*limit)` and `limit`. -/
def findMany (db : DB) (o : PipeQueryOptions) : List Pipe :=
  let page := o.page.getD 1
  let limit := o.limit.getD 10
  let rows := db.pipes.filter (pipeMatches o.search)
  let sorted := List.insertionSort (fun a b : Pipe => b.createdAt ≤ a.createdAt) rows
  (sorted.drop ((page - 1) * limit)).take limit

/-- `PipeRepository.count`: the query is `select({ count: pipes.id })`, i.e.
`SELECT id AS count FROM pipes [WHERE filter]` with no aggregate; the code then
destructures the FIRST returned row and returns its `count` field, which is
that row's `id`.  On an empty result set the destructured row is `undefined`
and reading `.count` throws a runtime TypeError. -/
def count (db : DB) (search : Option String) : Except Err Nat :=
  let rows := db.pipes.filter (pipeMatches search)
  match rows.head? with
  | some p => .ok p.id
  | none => .error .runtimeError

end PipeRepo

/-- DTO of `VersionService.createVersion` (types/version.ts
`CreateVersionDTO`). -/
structure CreateVersionDTO where
  pipeId : Nat
  versionNumber : String
  assetUrl : String
  envSchema : String
deriving DecidableEq, Repr

/-- The uniqueness constraints of the `versions` table: a global UNIQUE on
`version_number` (schema constraint `versions_version_number_unique`) plus the
compound unique index on `(pipe_id, version_number)`; the compound one is
subsumed by the global one but both are declared. -/
def violatesUnique (nv w : Version) : Bool :=
  w.versionNumber == nv.versionNumber ||
    (w.pipeId == nv.pipeId && w.versionNumber == nv.versionNumber)

namespace VersionRepo

/-- The row built by a version INSERT: `id` comes from the serial counter. -/
def mkVersion (db : DB) (d : CreateVersionDTO) (now : Nat) : Version :=
  { id := db.nextVersionId, pipeId := d.pipeId,
    versionNumber := d.versionNumber, assetUrl := d.assetUrl,
    envSchema := d.envSchema, createdAt := now, updatedAt := now }

/-- `VersionRepository.create`: INSERT returning the new row, or a constraint
violation raised by the database.  (Postgres also burns the serial value on a
failed insert; only the row contents matter here.) -/
def create (db : DB) (d : CreateVersionDTO) (now : Nat) :
    Except Err (Version × DB) :=
  if db.versions.any (violatesUnique (mkVersion db d now)) then
    .error .constraintViolation
  else
    .ok (mkVersion db d now,
         { db with versions := db.versions ++ [mkVersion db d now],
                   nextVersionId := db.nextVersionId + 1 })

/-- `VersionRepository.findByPipeId`: rows of the pipe, `createdAt`
descending. -/
def findByPipeId (db : DB) (pipeId : Nat) : List Version :=
  List.insertionSort verGe (db.versions.filter (fun v => v.pipeId == pipeId))

/-- `VersionRepository.findByPipeIdAndVersionNumber`. -/
def findByPipeIdAndVersionNumber (db : DB) (pipeId : Nat) (versionNumber : String) :
    Option Version :=
  db.versions.find? (fun v => v.pipeId == pipeId && v.versionNumber == versionNumber)

/-- `VersionRepository.findMany`: optional `pipeId` filter, `createdAt`
descending, offset/limit. -/
def findMany (db : DB) (o : VersionQueryOptions) : List Version :=
  let page := o.page.getD 1
  let limit := o.limit.getD 10
  let rows : List Version := match o.pipeId with
    | some pid => db.versions.filter (fun v => v.pipeId == pid)
    | none => db.versions
  ((List.insertionSort verGe rows).drop ((page - 1) * limit)).take limit

/-- `VersionRepository.count`: same aliased-column mistake as
`PipeRepository.count` — returns the first matching row's `id`, or throws on an
empty result. -/
def count (db : DB) (pipeId? : Option Nat) : Except Err Nat :=
  let rows : List Version := match pipeId? with
    | some pid => db.versions.filter (fun v => v.pipeId == pid)
    | none => db.versions
  match rows.head? with
  | some v => .ok v.id
  | none => .error .runtimeError

/-- `VersionRepository.findLatestByPipeId`: order the pipe's rows by
`createdAt` descending and take the first. -/
def findLatestByPipeId (db : DB) (pipeId : Nat) : Option Version :=
  (List.insertionSort verGe (db.versions.filter (fun v => v.pipeId == pipeId))).head?

end VersionRepo

namespace VersionSvc

/-- `VersionService.createVersion`: checks the referenced pipe exists (throwing
the Pipe-not-found error otherwise), then inserts with fresh timestamps. -/
def createVersion (db : DB) (d : CreateVersionDTO) (now : Nat) :
    Except Err (Version × DB) :=
  match PipeRepo.findById db d.pipeId with
  | none => .error .pipeNotFound
  | some _ => VersionRepo.create db d now

/-- `VersionService.getVersionsByPipeId`: checks the pipe exists, then lists. -/
def getVersionsByPipeId (db : DB) (pipeId : Nat) : Except Err (List Version) :=
  match PipeRepo.findById db pipeId with
  | none => .error .pipeNotFound
  | some _ => .ok (VersionRepo.findByPipeId db pipeId)

/-- `VersionService.getVersionByPipeIdAndVersionNumber`: forwards straight to
the repository — there is no pipe-existence check in this method. -/
def getVersionByPipeIdAndVersionNumber (db : DB) (pipeId : Nat)
    (versionNumber : String) : Except Err (Option Version) :=
  .ok (VersionRepo.findByPipeIdAndVersionNumber db pipeId versionNumber)

/-- `VersionService.getLatestVersionByPipeId`: checks the pipe exists, then
takes the latest row. -/
def getLatestVersionByPipeId (db : DB) (pipeId : Nat) :
    Except Err (Option Version) :=
  match PipeRepo.findById db pipeId with
  | none => .error .pipeNotFound
  | some _ => .ok (VersionRepo.findLatestByPipeId db pipeId)

/-- Result shape of the paginated version listing. -/
structure GetVersionsResult where
  versions : List Version
  totalCount : Nat
  page : Nat
  limit : Nat
  totalPages : Nat
deriving DecidableEq, Repr

/-- `VersionService.getVersions`: findMany and count in parallel — no
pipe-existence check for the `pipeId` filter; a count failure fails the whole
call. -/
def getVersions (db : DB) (o : VersionQueryOptions) :
    Except Err GetVersionsResult :=
  let page := o.page.getD 1
  let limit := o.limit.getD 10
  match VersionRepo.count db o.pipeId with
  | .error e => .error e
  | .ok totalCount =>
    .ok { versions := VersionRepo.findMany db o, totalCount := totalCount,
          page := page, limit := limit, totalPages := ceilDiv totalCount limit }

end VersionSvc

namespace FileStorage

/-- Default config values of `FileStorageService` (env overrides are not
modelled; no claim depends on their values). -/
def storageDir : String := "./uploads"

def baseUrl : String := "http://localhost:3000"

/-- Return value of `storeFile`. -/
structure StoredFile where
  fileName : String
  filePath : String
  url : String
deriving DecidableEq, Repr

/-- `FileStorageService.getFilePath`: `path.join(storageDir, fileName)`. -/
def getFilePath (fileName : String) : String :=
  storageDir ++ "/" ++ fileName

/-- `FileStorageService.storeFile`: writes `{name}-{version}.tar` into the
store and returns its name, path and public URL; if the filesystem write
throws (`diskOk = false`), the wrapped storage-write error is thrown instead
and the store keeps its previous contents. -/
def storeFile (diskOk : Bool) (fs : FS) (pipeName version : String) :
    Except Err (StoredFile × FS) :=
  if diskOk then
    let fn := tarFileName pipeName version
    .ok ({ fileName := fn, filePath := getFilePath fn, url := baseUrl ++ "/files/" ++ fn },
         { files := if fn ∈ fs.files then fs.files else fs.files ++ [fn] })
  else .error .storageWriteFailed

/-- `FileStorageService.fileExists`. -/
def fileExists (fs : FS) (fileName : String) : Bool :=
  fileName ∈ fs.files

end FileStorage

/-- DTO of `PipeService.createPipeWithFile` (types/pipe.ts
`CreatePipeWithFileDTO`); the uploaded byte stream itself is irrelevant to the
claims and is represented by the `diskOk` outcome of storing it. -/
structure CreatePipeWithFileDTO where
  name : String
  version : String
  description : Option String := none
  envSchema : String
deriving DecidableEq, Repr

namespace PipeSvc

/-- `PipeService.createPipeWithFile` (the spec's `registerVersion`):
store the archive first; then find-or-create the pipe by name; then create the
version row with the stored file's URL.  Every error is rethrown, leaving the
writes made so far in place (no transaction, no compensating delete). -/
def createPipeWithFile (d : CreatePipeWithFileDTO) (now : Nat) (diskOk : Bool)
    (st : St) : Except Err (Pipe × Version) × St :=
  match FileStorage.storeFile diskOk st.fs d.name d.version with
  | .error e => (.error e, st)
  | .ok (storedFile, fs') =>
    match PipeRepo.findByName st.db d.name with
    | none =>
      let (pipe, db1) := PipeRepo.create st.db d.name d.description now
      match VersionSvc.createVersion db1
          { pipeId := pipe.id, versionNumber := d.version,
            assetUrl := storedFile.url, envSchema := d.envSchema } now with
      | .error e => (.error e, { db := db1, fs := fs' })
      | .ok (version, db2) => (.ok (pipe, version), { db := db2, fs := fs' })
    | some pipe =>
      match VersionSvc.createVersion st.db
          { pipeId := pipe.id, versionNumber := d.version,
            assetUrl := storedFile.url, envSchema := d.envSchema } now with
      | .error e => (.error e, { db := st.db, fs := fs' })
      | .ok (version, db2) => (.ok (pipe, version), { db := db2, fs := fs' })

/-- Result shape of `PipeService.getPipes`. -/
structure GetPipesResult where
  pipes : List Pipe
  totalCount : Nat
  page : Nat
  limit : Nat
  totalPages : Nat
deriving DecidableEq, Repr

/-- `PipeService.getPipes`: findMany and count via `Promise.all`, then
`totalPages = Math.ceil(totalCount / limit)`; a count failure rejects the whole
call. -/
def getPipes (db : DB) (o : PipeQueryOptions) : Except Err GetPipesResult :=
  let page := o.page.getD 1
  let limit := o.limit.getD 10
  match PipeRepo.count db o.search with
  | .error e => .error e
  | .ok totalCount =>
    .ok { pipes := PipeRepo.findMany db o, totalCount := totalCount,
          page := page, limit := limit, totalPages := ceilDiv totalCount limit }

/-- The version-selection step of `getPipeForDownload`: with an explicit
version, list the pipe's versions and pick the exact `versionNumber` match
(`|| null`); otherwise take the latest. -/
def selectVersion (db : DB) (pipe : Pipe) (version? : Option String) :
    Except Err (Option Version) :=
  match version? with
  | some vn =>
    match VersionSvc.getVersionsByPipeId db pipe.id with
    | .error e => .error e
    | .ok vs => .ok (vs.find? (fun v => v.versionNumber == vn))
  | none => VersionSvc.getLatestVersionByPipeId db pipe.id

/-- Successful result of `getPipeForDownload`. -/
structure DownloadResult where
  pipe : Pipe
  version : Version
  filePath : String
deriving DecidableEq, Repr

/-- `PipeService.getPipeForDownload` (the spec's `resolveDownload`): locate the
pipe by name (null if absent); select the version (explicit or latest); null if
none was selected or its `assetUrl` is empty; derive `{name}-{version}.tar` and
null if that file is absent from the archive store; otherwise return pipe,
version and the local file path. -/
def getPipeForDownload (st : St) (name : String) (version? : Option String) :
    Except Err (Option DownloadResult) :=
  match PipeRepo.findByName st.db name with
  | none => .ok none
  | some pipe =>
    match selectVersion st.db pipe version? with
    | .error e => .error e
    | .ok none => .ok none
    | .ok (some v) =>
      if v.assetUrl = "" then .ok none
      else
        if FileStorage.fileExists st.fs (tarFileName pipe.name v.versionNumber) then
          .ok (some { pipe := pipe, version := v,
                      filePath := FileStorage.getFilePath (tarFileName pipe.name v.versionNumber) })
        else .ok none

end PipeSvc

/-- Response of the download controller: HTTP status, the error message of a
JSON error body (if any), and the attachment file name of a success (the TS
code wraps the pipe name and version of the 404 message in single quotes;
those quote characters are omitted here, which changes no distinction between
messages). -/
structure HttpResponse where
  status : Nat
  errorMsg : Option String
  fileName : Option String
deriving DecidableEq, Repr

namespace PipeCtrl

/-- The 404 body of `downloadPipe`: one fixed message per request shape,
chosen only by whether an explicit version was requested. -/
def notFoundMsg (name : String) (version? : Option String) : String :=
  match version? with
  | some v => "Pipe " ++ name ++ " version " ++ v ++ " not found or no asset available"
  | none => "Pipe " ++ name ++ " not found or no asset available"

/-- `PipeController.downloadPipe` (GET /pipes/:name/download/:version?):
400 for an empty name, 404 with `notFoundMsg` when the service resolves to
null, 500 for a thrown error, otherwise 200 streaming
`{name}-{versionNumber}.tar` as an attachment. -/
def downloadPipe (st : St) (name : String) (version? : Option String) :
    HttpResponse :=
  if name = "" then { status := 400, errorMsg := some "Pipe name is required",
                      fileName := none }
  else
    match PipeSvc.getPipeForDownload st name version? with
    | .error _ => { status := 500, errorMsg := some "Internal server error",
                    fileName := none }
    | .ok none => { status := 404, errorMsg := some (notFoundMsg name version?),
                    fileName := none }
    | .ok (some r) => { status := 200, errorMsg := none,
                        fileName := some (tarFileName r.pipe.name r.version.versionNumber) }

end PipeCtrl

/-- A row of the left join `pipes LEFT JOIN versions ON pipes.id =
versions.pipe_id`: the pipe columns plus the nullable version columns (the TS
row carries them as individually nullable fields guarded by `row.versionId`). -/
structure JoinedRow where
  pipe : Pipe
  ver : Option Version
deriving DecidableEq, Repr

/-- Nested result shape `Pipe & { versions: Version[] }`. -/
structure PipeWithVersions where
  pipe : Pipe
  versions : List Version
deriving DecidableEq, Repr

/-- The ORDER BY of `findManyWithVersions`: pipe `createdAt` descending, then
version `createdAt` descending (a NULL version column sorts first under
descending order, Postgres default). -/
def rowGeB (a b : JoinedRow) : Bool :=
  b.pipe.createdAt < a.pipe.createdAt ||
    (b.pipe.createdAt == a.pipe.createdAt &&
      (match a.ver, b.ver with
       | none, _ => true
       | some _, none => false
       | some x, some y => y.createdAt ≤ x.createdAt))

namespace PipeRepo

/-- The joined, search-filtered, ordered row set that the
`findManyWithVersions` query ranges over (the search filter tests only the
pipe columns). -/
def joinRows (db : DB) (search : Option String) : List JoinedRow :=
  let rows := (db.pipes.filter (pipeMatches search)).flatMap (fun p =>
    match db.versions.filter (fun v => v.pipeId == p.id) with
    | [] => [{ pipe := p, ver := none }]
    | vs => vs.map (fun v => { pipe := p, ver := some v }))
  List.insertionSort (fun a b => rowGeB a b = true) rows

/-- The row window actually fetched by `findManyWithVersions`:
`.limit(limit * 10).offset((page - 1) * limit * 10)` — row-level pagination
applied before any grouping. -/
def fetchedRows (db : DB) (o : PipeQueryOptions) : List JoinedRow :=
  let page := o.page.getD 1
  let limit := o.limit.getD 10
  ((joinRows db o.search).drop ((page - 1) * limit * 10)).take (limit * 10)

/-- One step of the grouping loop: a JS `Map` keyed by pipe id.  A first
occurrence appends a new entry (insertion order is preserved by `Map`); every
row carrying version data pushes that version onto its entry. -/
def addRow (acc : List PipeWithVersions) (r : JoinedRow) : List PipeWithVersions :=
  let tail := match r.ver with | some v => [v] | none => []
  if acc.any (fun g => g.pipe.id == r.pipe.id) then
    acc.map (fun g => if g.pipe.id == r.pipe.id then
                        { g with versions := g.versions ++ tail }
                      else g)
  else acc ++ [{ pipe := r.pipe, versions := tail }]

/-- The grouping loop of `findManyWithVersions` over the fetched rows. -/
def groupRows (rows : List JoinedRow) : List PipeWithVersions :=
  rows.foldl addRow []

/-- `PipeRepository.findManyWithVersions`: fetch the row window, group it by
pipe id, then `slice(startIndex, endIndex)` the grouped list with
`startIndex = (page - 1) * limit`. -/
def findManyWithVersions (db : DB) (o : PipeQueryOptions) :
    List PipeWithVersions :=
  let page := o.page.getD 1
  let limit := o.limit.getD 10
  let grouped := groupRows (fetchedRows db o)
  (grouped.drop ((page - 1) * limit)).take limit

end PipeRepo

/-- The pipe ids of a grouped list. -/
def keysOf (gs : List PipeWithVersions) : List Nat :=
  gs.map (fun g => g.pipe.id)

/-- First-occurrence deduplication, left to right — the key order of a JS
`Map` filled by iteration. -/
def firstOccur (l : List Nat) : List Nat :=
  l.foldl (fun acc x => if x ∈ acc then acc else acc ++ [x]) []

/-! Concrete states used to exercise the model. -/

/-- A fresh deployment: empty tables, empty archive store. -/
def emptySt : St :=
  { db := { pipes := [], versions := [], nextPipeId := 1, nextVersionId := 1 },
    fs := { files := [] } }

/-- A first registration request. -/
def dto0 : CreatePipeWithFileDTO :=
  { name := "a", version := "1.0.0", envSchema := "e" }

/-- A second registration for the same name with a new version number and a
different description. -/
def dto2 : CreatePipeWithFileDTO :=
  { name := "a", version := "2.0.0", description := some "ignored", envSchema := "e" }

/-- The pipe row created by running `dto0` against `emptySt` at time 1. -/
def pipe0c : Pipe := { id := 1, name := "a", description := none, createdAt := 1, updatedAt := 1 }

/-- The version row created by running `dto0` against `emptySt` at time 1. -/
def ver0c : Version :=
  { id := 1, pipeId := 1, versionNumber := "1.0.0",
    assetUrl := "http://localhost:3000/files/a-1.0.0.tar", envSchema := "e",
    createdAt := 1, updatedAt := 1 }

/-- The state after running `dto0` against `emptySt` at time 1. -/
def st1c : St :=
  { db := { pipes := [pipe0c], versions := [ver0c], nextPipeId := 2, nextVersionId := 2 },
    fs := { files := ["a-1.0.0.tar"] } }

/-- The version row created by running `dto2` against `st1c` at time 5. -/
def ver2c : Version :=
  { id := 2, pipeId := 1, versionNumber := "2.0.0",
    assetUrl := "http://localhost:3000/files/a-2.0.0.tar", envSchema := "e",
    createdAt := 5, updatedAt := 5 }

/-- The state after running `dto2` against `st1c` at time 5. -/
def st2c : St :=
  { db := { pipes := [pipe0c], versions := [ver0c, ver2c], nextPipeId := 2, nextVersionId := 3 },
    fs := { files := ["a-1.0.0.tar", "a-2.0.0.tar"] } }

/-- A pipe with two versions of distinct `createdAt`. -/
def pL : Pipe := { id := 1, name := "p", description := none, createdAt := 1, updatedAt := 1 }

def vOld : Version :=
  { id := 1, pipeId := 1, versionNumber := "1.0.0", assetUrl := "u", envSchema := "e",
    createdAt := 5, updatedAt := 5 }

def vNew : Version :=
  { id := 2, pipeId := 1, versionNumber := "2.0.0", assetUrl := "u", envSchema := "e",
    createdAt := 9, updatedAt := 9 }

/-- State with pipe `p` having an older and a newer version, the newer one's
archive present in the store. -/
def stLatest : St :=
  { db := { pipes := [pL], versions := [vOld, vNew], nextPipeId := 2, nextVersionId := 3 },
    fs := { files := ["p-2.0.0.tar"] } }

/-- The download resolution of `stLatest` without an explicit version. -/
def dlr0 : PipeSvc.DownloadResult :=
  { pipe := pL, version := vNew, filePath := "./uploads/p-2.0.0.tar" }

def pipeB : Pipe := { id := 1, name := "p", description := none, createdAt := 1, updatedAt := 1 }

/-- A version row registered without any uploaded archive (`assetUrl` empty). -/
def verB : Version :=
  { id := 1, pipeId := 1, versionNumber := "1.0.0", assetUrl := "", envSchema := "e",
    createdAt := 1, updatedAt := 1 }

/-- Pipe `p` exists, its only version has no asset, the store is empty. -/
def stAsset : St :=
  { db := { pipes := [pipeB], versions := [verB], nextPipeId := 2, nextVersionId := 2 },
    fs := { files := [] } }

/-- Pipe `p` exists with no version rows at all. -/
def stNoVersion : St :=
  { db := { pipes := [pipeB], versions := [], nextPipeId := 2, nextVersionId := 1 },
    fs := { files := [] } }

/-- 25 pipes with ids 1..25 and increasing `createdAt`, no versions. -/
def db25 : DB :=
  { pipes := (List.range 25).map (fun i =>
      { id := i + 1, name := "", description := none, createdAt := i + 1, updatedAt := i + 1 }),
    versions := [], nextPipeId := 26, nextVersionId := 1 }

/-- Two pipes, one version each, for exercising `findManyWithVersions`. -/
def dbC9 : DB :=
  { pipes := [{ id := 1, name := "p1", description := none, createdAt := 2, updatedAt := 2 },
              { id := 2, name := "p2", description := none, createdAt := 1, updatedAt := 1 }],
    versions := [{ id := 1, pipeId := 1, versionNumber := "1.0.0", assetUrl := "u",
                   envSchema := "e", createdAt := 1, updatedAt := 1 },
                 { id := 2, pipeId := 2, versionNumber := "2.0.0", assetUrl := "u",
                   envSchema := "e", createdAt := 1, updatedAt := 1 }],
    nextPipeId := 3, nextVersionId := 3 }

/-- The grouped entry of pipe 1 of `dbC9`. -/
def g1c : PipeWithVersions :=
  { pipe := { id := 1, name := "p1", description := none, createdAt := 2, updatedAt := 2 },
    versions := [{ id := 1, pipeId := 1, versionNumber := "1.0.0", assetUrl := "u",
                   envSchema := "e", createdAt := 1, updatedAt := 1 }] }

/-! Helper lemmas about the embedded operations. -/

/-- A successful filesystem write: `storeFile` returns the derived file name,
path and URL and adds the file to the store. -/
theorem storeFile_true_eq (fs : FS) (n v : String) :
    FileStorage.storeFile true fs n v =
      .ok ({ fileName := tarFileName n v,
             filePath := FileStorage.getFilePath (tarFileName n v),
             url := FileStorage.baseUrl ++ "/files/" ++ tarFileName n v },
           { files := if tarFileName n v ∈ fs.files then fs.files
                      else fs.files ++ [tarFileName n v] }) := rfl

/-- A successful `VersionService.createVersion` appends exactly the returned
row to the versions table and leaves the pipes table alone; the returned row
carries the requested `pipeId` and `versionNumber`. -/
theorem createVersion_ok_eq (db : DB) (d : CreateVersionDTO) (now : Nat)
    (v : Version) (db2 : DB)
    (h : VersionSvc.createVersion db d now = .ok (v, db2)) :
    db2.pipes = db.pipes ∧ db2.versions = db.versions ++ [v] ∧
    v.pipeId = d.pipeId ∧ v.versionNumber = d.versionNumber := by
  unfold VersionSvc.createVersion VersionRepo.create at h
  split at h
  · exact Except.noConfusion h
  · split at h
    · exact Except.noConfusion h
    · injection h with h1
      injection h1 with hv hdb
      subst hv; subst hdb
      refine ⟨rfl, rfl, rfl, rfl⟩

/-- `createVersion` hits the uniqueness constraint whenever any existing row
already carries the requested `versionNumber` (the schema's global UNIQUE). -/
theorem createVersion_conflict (db : DB) (d : CreateVersionDTO) (now : Nat)
    (q : Pipe) (hq : PipeRepo.findById db d.pipeId = some q)
    (w : Version) (hw : w ∈ db.versions) (hwn : w.versionNumber = d.versionNumber) :
    VersionSvc.createVersion db d now = .error .constraintViolation := by
  unfold VersionSvc.createVersion
  rw [hq]
  unfold VersionRepo.create
  rw [if_pos]
  exact List.any_eq_true.mpr ⟨w, hw, by simp [violatesUnique, VersionRepo.mkVersion, hwn]⟩

/-! C1. -/

/-- C1: if persisting the archive fails, `createPipeWithFile` fails with the
storage-write error and the whole state — in particular both database tables —
is unchanged: no Pipe row and no Version row is created. -/
theorem c1_storage_failure_aborts (d : CreatePipeWithFileDTO) (now : Nat) (st : St) :
    PipeSvc.createPipeWithFile d now false st = (.error .storageWriteFailed, st) := rfl

/-! C6. -/

/-- C6: over 25 stored pipes, `listPipes(page = 2, limit = 10)` does NOT
report `totalCount = 25` and `totalPages = 3`: the repository `count` selects
the `id` column aliased as `count` and returns the first row's value, so
`count` yields 1, `totalCount` is 1 and `totalPages` is 1. -/
theorem c6_count_returns_first_row_id :
    db25.pipes.length = 25 ∧
    PipeRepo.count db25 none = .ok 1 ∧
    (PipeSvc.getPipes db25 { page := some 2, limit := some 10 }).map
        (fun r => (r.totalCount, r.totalPages)) = .ok (1, 1) := by decide

/-! C7: counterexample. -/

/-- C7 counterexample: the same download request yields byte-for-byte the same
404 response whether the pipe does not exist (`emptySt`), the pipe exists with
no version rows (`stNoVersion`), or the selected version has no asset
(`stAsset`) — the message does not distinguish the three failure causes. -/
theorem c7_counterexample :
    PipeCtrl.downloadPipe emptySt "p" none = PipeCtrl.downloadPipe stAsset "p" none ∧
    PipeCtrl.downloadPipe stNoVersion "p" none = PipeCtrl.downloadPipe stAsset "p" none ∧
    (PipeCtrl.downloadPipe emptySt "p" none).status = 404 ∧
    PipeRepo.findByName emptySt.db "p" = none ∧
    PipeRepo.findByName stAsset.db "p" = some pipeB ∧
    VersionRepo.findByPipeId stAsset.db pipeB.id = [verB] ∧
    VersionRepo.findByPipeId stNoVersion.db pipeB.id = [] := by decide

/-! C8: counterexample. -/

/-- C8 counterexample: with an empty database (pipe 1 does not exist),
`getVersionByPipeIdAndVersionNumber` does not fail with the Pipe-not-found
error — it simply returns null. -/
theorem c8_counterexample :
    PipeRepo.findById emptySt.db 1 = none ∧
    VersionSvc.getVersionByPipeIdAndVersionNumber emptySt.db 1 "1.0.0" = .ok none := by
  decide

/-! C9: counterexample. -/

/-- C9 counterexample: over two pipes with one version each and `limit = 1`,
page 1 returns pipe 1 but page 2 returns the empty list, so pipe 2 appears on
no page: the pages do not partition the grouped pipe list, because the query
already applies a row-level offset of `(page-1)*limit*10` before grouping and
the grouped list is then sliced a second time. -/
theorem c9_counterexample :
    PipeRepo.findManyWithVersions dbC9 { page := some 2, limit := some 1 } = [] ∧
    keysOf (PipeRepo.findManyWithVersions dbC9 { page := some 1, limit := some 1 }) = [1] ∧
    dbC9.pipes.map (fun p => p.id) = [1, 2] := by decide

/-- Case analysis of a successful `createPipeWithFile`: the returned pipe
carries the requested name, the returned version row is appended to the
versions table and points at the returned pipe; the pipe is either freshly
appended (no pipe of that name existed) or the already-existing row, returned
untouched. -/
theorem createPipeWithFile_ok_cases (d : CreatePipeWithFileDTO) (now : Nat) (st : St)
    (p : Pipe) (v : Version) (st' : St)
    (h : PipeSvc.createPipeWithFile d now true st = (.ok (p, v), st')) :
    p.name = d.name ∧ v.pipeId = p.id ∧ v.versionNumber = d.version ∧
    st'.db.versions = st.db.versions ++ [v] ∧
    ((PipeRepo.findByName st.db d.name = none ∧ st'.db.pipes = st.db.pipes ++ [p]) ∨
     (PipeRepo.findByName st.db d.name = some p ∧ st'.db.pipes = st.db.pipes)) := by
  unfold PipeSvc.createPipeWithFile at h
  rw [storeFile_true_eq] at h
  cases hfn : PipeRepo.findByName st.db d.name with
  | none =>
    simp only [hfn, PipeRepo.create] at h
    split at h
    · injection h with h1 h2
      exact Except.noConfusion h1
    · rename_i version db2 heq
      injection h with h1 h2
      injection h1 with h3
      injection h3 with hp hv
      subst hp; subst hv; subst h2
      obtain ⟨hpipes, hvers, hpid, hvn⟩ := createVersion_ok_eq _ _ _ _ _ heq
      refine ⟨rfl, hpid, hvn, ?_, Or.inl ⟨rfl, ?_⟩⟩
      · rw [hvers]
      · rw [hpipes]
  | some q =>
    simp only [hfn] at h
    split at h
    · injection h with h1 h2
      exact Except.noConfusion h1
    · rename_i version db2 heq
      injection h with h1 h2
      injection h1 with h3
      injection h3 with hp hv
      subst hp; subst hv; subst h2
      obtain ⟨hpipes, hvers, hpid, hvn⟩ := createVersion_ok_eq _ _ _ _ _ heq
      have hname : q.name = d.name := by
        have := List.find?_some hfn
        simpa using this
      exact ⟨hname, hpid, hvn, hvers, Or.inr ⟨rfl, hpipes⟩⟩

/-! C2. -/

/-- C2: when no pipe of the requested name exists, a successful
`createPipeWithFile` appends exactly one Pipe row and exactly one Version row,
and the returned version's `pipeId` equals the returned pipe's `id`. -/
theorem c2_new_name_creates_one_pipe_one_version
    (d : CreatePipeWithFileDTO) (now : Nat) (st : St) (p : Pipe) (v : Version) (st' : St)
    (hname : ∀ q ∈ st.db.pipes, q.name ≠ d.name)
    (h : PipeSvc.createPipeWithFile d now true st = (.ok (p, v), st')) :
    st'.db.pipes = st.db.pipes ++ [p] ∧
    st'.db.versions = st.db.versions ++ [v] ∧
    v.pipeId = p.id := by
  have hfind : PipeRepo.findByName st.db d.name = none := by
    apply List.find?_eq_none.mpr
    intro q hq
    simpa using hname q hq
  obtain ⟨-, hpid, -, hvers, hcase⟩ := createPipeWithFile_ok_cases d now st p v st' h
  rcases hcase with ⟨-, hpipes⟩ | ⟨hsome, -⟩
  · exact ⟨hpipes, hvers, hpid⟩
  · rw [hfind] at hsome
    exact Option.noConfusion hsome

/-- C2 witness: running `dto0` against the empty state at time 1 creates the
single pipe `pipe0c` and the single version `ver0c` pointing at it. -/
theorem c2_witness :
    st1c.db.pipes = emptySt.db.pipes ++ [pipe0c] ∧
    st1c.db.versions = emptySt.db.versions ++ [ver0c] ∧
    ver0c.pipeId = pipe0c.id :=
  c2_new_name_creates_one_pipe_one_version dto0 1 emptySt pipe0c ver0c st1c
    (by decide) (by decide)

/-! C3. -/

/-- C3: after a successful `createPipeWithFile`, repeating the call with the
same `(name, versionNumber)` (with the filesystem write succeeding) fails with
the uniqueness-constraint error and leaves the database — in particular the
versions table — exactly as it was. -/
theorem c3_duplicate_version_conflicts
    (d : CreatePipeWithFileDTO) (now1 now2 : Nat) (st0 st1 : St) (p : Pipe) (v : Version)
    (h1 : PipeSvc.createPipeWithFile d now1 true st0 = (.ok (p, v), st1)) :
    ∃ fs2, PipeSvc.createPipeWithFile d now2 true st1 =
      (.error .constraintViolation, { db := st1.db, fs := fs2 }) := by
  obtain ⟨hpname, -, hvn, hvers, hcase⟩ := createPipeWithFile_ok_cases d now1 st0 p v st1 h1
  have hpmem : p ∈ st1.db.pipes := by
    rcases hcase with ⟨-, hpipes⟩ | ⟨hsome, hpipes⟩
    · rw [hpipes]; exact List.mem_append_right _ (List.mem_singleton.mpr rfl)
    · rw [hpipes]; exact List.mem_of_find?_eq_some hsome
  have hvmem : v ∈ st1.db.versions := by
    rw [hvers]; exact List.mem_append_right _ (List.mem_singleton.mpr rfl)
  have hq : ∃ q, PipeRepo.findByName st1.db d.name = some q := by
    apply Option.isSome_iff_exists.mp
    exact List.find?_isSome.mpr ⟨p, hpmem, by simp [hpname]⟩
  obtain ⟨q, hq⟩ := hq
  have hqmem : q ∈ st1.db.pipes := List.mem_of_find?_eq_some hq
  have hfid : ∃ q', PipeRepo.findById st1.db q.id = some q' := by
    apply Option.isSome_iff_exists.mp
    exact List.find?_isSome.mpr ⟨q, hqmem, by simp⟩
  obtain ⟨q', hfid⟩ := hfid
  have hcv := createVersion_conflict st1.db
    { pipeId := q.id, versionNumber := d.version,
      assetUrl := FileStorage.baseUrl ++ "/files/" ++ tarFileName d.name d.version,
      envSchema := d.envSchema } now2 q' hfid v hvmem hvn
  refine ⟨{ files := if tarFileName d.name d.version ∈ st1.fs.files then st1.fs.files
            else st1.fs.files ++ [tarFileName d.name d.version] }, ?_⟩
  unfold PipeSvc.createPipeWithFile
  rw [storeFile_true_eq]
  simp only [hq, hcv]

/-- C3 witness: running `dto0` twice from the empty state — the second call
fails with the constraint violation and leaves the database of `st1c`
unchanged. -/
theorem c3_witness :
    ∃ fs2, PipeSvc.createPipeWithFile dto0 2 true st1c =
      (.error .constraintViolation, { db := st1c.db, fs := fs2 }) :=
  c3_duplicate_version_conflicts dto0 1 2 emptySt st1c pipe0c ver0c (by decide)

/-! C10. -/

/-- C10: when a pipe of the requested name already exists, a successful
`createPipeWithFile` returns that existing row as-is and leaves the pipes
table entirely unchanged — the supplied description is not merged and
`updatedAt` is not refreshed — while exactly one Version row is appended under
that pipe's id. -/
theorem c10_existing_pipe_untouched
    (d : CreatePipeWithFileDTO) (now : Nat) (st : St) (q p : Pipe) (v : Version) (st' : St)
    (hfind : PipeRepo.findByName st.db d.name = some q)
    (h : PipeSvc.createPipeWithFile d now true st = (.ok (p, v), st')) :
    p = q ∧ st'.db.pipes = st.db.pipes ∧
    st'.db.versions = st.db.versions ++ [v] ∧ v.pipeId = q.id := by
  obtain ⟨-, hpid, -, hvers, hcase⟩ := createPipeWithFile_ok_cases d now st p v st' h
  rcases hcase with ⟨hnone, -⟩ | ⟨hsome, hpipes⟩
  · rw [hfind] at hnone
    exact Option.noConfusion hnone
  · rw [hfind] at hsome
    have hpq : p = q := (Option.some.inj hsome).symm
    subst hpq
    exact ⟨rfl, hpipes, hvers, hpid⟩

/-- C10 witness: registering version 2.0.0 of pipe `a` (with a different
description in the request) on top of `st1c` leaves the pipe row `pipe0c`
untouched and appends only `ver2c`. -/
theorem c10_witness :
    pipe0c = pipe0c ∧ st2c.db.pipes = st1c.db.pipes ∧
    st2c.db.versions = st1c.db.versions ++ [ver2c] ∧ ver2c.pipeId = pipe0c.id :=
  c10_existing_pipe_untouched dto2 5 st1c pipe0c pipe0c ver2c st2c
    (by decide) (by decide)

/-! C4. -/

/-- C4: a successful download resolution without an explicit version returns a
version of the located pipe whose `createdAt` is maximal among that pipe's
version rows (ties broken arbitrarily by the sort). -/
theorem c4_no_version_selects_latest (st : St) (name : String)
    (r : PipeSvc.DownloadResult)
    (h : PipeSvc.getPipeForDownload st name none = .ok (some r)) :
    r.version.pipeId = r.pipe.id ∧ r.version ∈ st.db.versions ∧
    ∀ w ∈ st.db.versions, w.pipeId = r.pipe.id →
      w.createdAt ≤ r.version.createdAt := by
  unfold PipeSvc.getPipeForDownload at h
  split at h
  · exact Option.noConfusion (Except.ok.inj h)
  · rename_i pipe hfn
    split at h
    · exact Except.noConfusion h
    · exact Option.noConfusion (Except.ok.inj h)
    · rename_i v hsel
      split at h
      · exact Option.noConfusion (Except.ok.inj h)
      · split at h
        · have hr : r =
              { pipe := pipe, version := v,
                filePath := FileStorage.getFilePath (tarFileName pipe.name v.versionNumber) } :=
            (Option.some.inj (Except.ok.inj h)).symm
          subst hr
          simp only [PipeSvc.selectVersion, VersionSvc.getLatestVersionByPipeId] at hsel
          split at hsel
          · exact Except.noConfusion hsel
          · have hlat : VersionRepo.findLatestByPipeId st.db pipe.id = some v :=
              Except.ok.inj hsel
            unfold VersionRepo.findLatestByPipeId at hlat
            cases hL : List.insertionSort verGe
                (st.db.versions.filter (fun w => w.pipeId == pipe.id)) with
            | nil => rw [hL] at hlat; exact Option.noConfusion hlat
            | cons a t =>
              rw [hL] at hlat
              have hav : a = v := Option.some.inj hlat
              subst hav
              have hmemSort : a ∈ List.insertionSort verGe
                  (st.db.versions.filter (fun w => w.pipeId == pipe.id)) := by
                rw [hL]; exact List.mem_cons_self a t
              have hmemFil := (List.mem_insertionSort verGe).mp hmemSort
              obtain ⟨hmem, hpid⟩ := List.mem_filter.mp hmemFil
              have hs := List.sorted_insertionSort verGe
                (st.db.versions.filter (fun w => w.pipeId == pipe.id))
              rw [hL] at hs
              refine ⟨by simpa using hpid, hmem, ?_⟩
              intro w hw hwp
              have hwFil : w ∈ st.db.versions.filter (fun w => w.pipeId == pipe.id) :=
                List.mem_filter.mpr ⟨hw, by simp [hwp]⟩
              have hwSort := (List.mem_insertionSort verGe).mpr hwFil
              rw [hL] at hwSort
              rcases List.mem_cons.mp hwSort with hwa | hwt
              · subst hwa; exact Nat.le_refl _
              · exact (List.sorted_cons.mp hs).1 w hwt
        · exact Option.noConfusion (Except.ok.inj h)

/-- C4 witness: in `stLatest`, the versionless download of pipe `p` resolves
to `vNew` (createdAt 9), which dominates both stored versions. -/
theorem c4_witness :
    PipeSvc.getPipeForDownload stLatest "p" none = .ok (some dlr0) ∧
    ∀ w ∈ stLatest.db.versions, w.pipeId = dlr0.pipe.id →
      w.createdAt ≤ dlr0.version.createdAt :=
  ⟨by decide, (c4_no_version_selects_latest stLatest "p" dlr0 (by decide)).2.2⟩

/-! C5. -/

/-- C5: a download resolution returns a result only when the selected
version's `assetUrl` is non-empty and the derived archive file exists in the
store; whenever the selected version has an empty `assetUrl` or the file is
absent, the resolution is null even though the version row exists. -/
theorem c5_filesystem_is_source_of_truth (st : St) (name : String)
    (v? : Option String) :
    (∀ r, PipeSvc.getPipeForDownload st name v? = .ok (some r) →
       r.version.assetUrl ≠ "" ∧
       FileStorage.fileExists st.fs (tarFileName r.pipe.name r.version.versionNumber) = true) ∧
    (∀ pipe v, PipeRepo.findByName st.db name = some pipe →
       PipeSvc.selectVersion st.db pipe v? = .ok (some v) →
       (v.assetUrl = "" ∨
        FileStorage.fileExists st.fs (tarFileName pipe.name v.versionNumber) = false) →
       PipeSvc.getPipeForDownload st name v? = .ok none) := by
  constructor
  · intro r h
    unfold PipeSvc.getPipeForDownload at h
    split at h
    · exact Option.noConfusion (Except.ok.inj h)
    · rename_i pipe hfn
      split at h
      · exact Except.noConfusion h
      · exact Option.noConfusion (Except.ok.inj h)
      · rename_i v hsel
        split at h
        · exact Option.noConfusion (Except.ok.inj h)
        · rename_i hne
          split at h
          · rename_i hex
            have hr : r =
                { pipe := pipe, version := v,
                  filePath := FileStorage.getFilePath (tarFileName pipe.name v.versionNumber) } :=
              (Option.some.inj (Except.ok.inj h)).symm
            subst hr
            exact ⟨hne, hex⟩
          · exact Option.noConfusion (Except.ok.inj h)
  · intro pipe v hfn hsel hbad
    unfold PipeSvc.getPipeForDownload
    simp only [hfn, hsel]
    rcases hbad with hempty | hnofile
    · rw [if_pos hempty]
    · by_cases hemp : v.assetUrl = ""
      · rw [if_pos hemp]
      · rw [if_neg hemp]
        simp [hnofile]

/-- C5 witness: in `stAsset` pipe `p` and its version row exist, but the
version was registered with an empty `assetUrl`, so the download resolution is
null. -/
theorem c5_witness :
    PipeRepo.findByName stAsset.db "p" = some pipeB ∧
    PipeSvc.selectVersion stAsset.db pipeB none = .ok (some verB) ∧
    PipeSvc.getPipeForDownload stAsset "p" none = .ok none :=
  ⟨by decide, by decide,
   (c5_filesystem_is_source_of_truth stAsset "p" none).2 pipeB verB
     (by decide) (by decide) (Or.inl rfl)⟩

/-! C7: amended. -/

/-- C7 amended: every failed resolution of a download request yields status
404, and the 404 response depends only on the request (name and optional
version), not on which of the three causes — pipe absent, version absent, no
asset — made the resolution fail. -/
theorem c7_amended_message_ignores_cause (st st' : St) (name : String)
    (v? : Option String) (hname : name ≠ "")
    (h : PipeSvc.getPipeForDownload st name v? = .ok none)
    (h' : PipeSvc.getPipeForDownload st' name v? = .ok none) :
    PipeCtrl.downloadPipe st name v? = PipeCtrl.downloadPipe st' name v? ∧
    (PipeCtrl.downloadPipe st name v?).status = 404 := by
  unfold PipeCtrl.downloadPipe
  rw [if_neg hname, if_neg hname, h, h']
  exact ⟨rfl, rfl⟩

/-- C7 witness: the pipe-absent state and the no-asset state produce the same
404 response for the same request. -/
theorem c7_witness :
    PipeCtrl.downloadPipe emptySt "p" none = PipeCtrl.downloadPipe stAsset "p" none ∧
    (PipeCtrl.downloadPipe emptySt "p" none).status = 404 :=
  c7_amended_message_ignores_cause emptySt stAsset "p" none
    (by decide) (by decide) (by decide)

/-! C8: amended. -/

/-- The buggy `VersionRepository.count` can only return a value or throw the
runtime error — never the Pipe-not-found error. -/
theorem count_not_pipeNotFound (db : DB) (pid? : Option Nat) :
    VersionRepo.count db pid? ≠ .error .pipeNotFound := by
  simp only [VersionRepo.count]
  split
  · simp
  · simp

/-- C8 amended: when the referenced pipe does not exist, `createVersion`,
`getVersionsByPipeId` and `getLatestVersionByPipeId` fail with the
Pipe-not-found error, but `getVersionByPipeIdAndVersionNumber` forwards
straight to the repository (returning its nullable lookup), and the
pipeId-filtered listing `getVersions` performs no pipe check either — it never
fails with Pipe-not-found. -/
theorem c8_amended_pipe_checks (db : DB) (pid : Nat) (d : CreateVersionDTO)
    (now : Nat) (vn : String) (o : VersionQueryOptions)
    (habsent : PipeRepo.findById db pid = none)
    (hd : d.pipeId = pid) (ho : o.pipeId = some pid) :
    VersionSvc.createVersion db d now = .error .pipeNotFound ∧
    VersionSvc.getVersionsByPipeId db pid = .error .pipeNotFound ∧
    VersionSvc.getLatestVersionByPipeId db pid = .error .pipeNotFound ∧
    VersionSvc.getVersionByPipeIdAndVersionNumber db pid vn =
      .ok (VersionRepo.findByPipeIdAndVersionNumber db pid vn) ∧
    VersionSvc.getVersions db o ≠ .error .pipeNotFound := by
  refine ⟨?_, ?_, ?_, rfl, ?_⟩
  · unfold VersionSvc.createVersion
    rw [hd, habsent]
  · unfold VersionSvc.getVersionsByPipeId
    rw [habsent]
  · unfold VersionSvc.getLatestVersionByPipeId
    rw [habsent]
  · intro hcon
    simp only [VersionSvc.getVersions] at hcon
    split at hcon
    · rename_i e hc
      have he : e = Err.pipeNotFound := by
        have := Except.error.inj hcon
        exact this
      rw [he] at hc
      exact count_not_pipeNotFound db o.pipeId hc
    · exact Except.noConfusion hcon

/-- C8 witness: against the empty database (pipe 1 absent) the three checked
operations fail with Pipe-not-found, while the unchecked lookup returns null
and the filtered listing does not fail with Pipe-not-found. -/
theorem c8_witness :
    VersionSvc.createVersion emptySt.db
      { pipeId := 1, versionNumber := "1.0.0", assetUrl := "u", envSchema := "x" } 1 =
      .error .pipeNotFound ∧
    VersionSvc.getVersionsByPipeId emptySt.db 1 = .error .pipeNotFound ∧
    VersionSvc.getLatestVersionByPipeId emptySt.db 1 = .error .pipeNotFound ∧
    VersionSvc.getVersionByPipeIdAndVersionNumber emptySt.db 1 "1.0.0" =
      .ok (VersionRepo.findByPipeIdAndVersionNumber emptySt.db 1 "1.0.0") ∧
    VersionSvc.getVersions emptySt.db { pipeId := some 1 } ≠ .error .pipeNotFound :=
  c8_amended_pipe_checks emptySt.db 1
    { pipeId := 1, versionNumber := "1.0.0", assetUrl := "u", envSchema := "x" }
    1 "1.0.0" { pipeId := some 1 } (by decide) rfl rfl

/-! C9: grouping lemmas. -/

/-- `keysOf` commutes with `take`. -/
theorem keysOf_take (n : Nat) (gs : List PipeWithVersions) :
    keysOf (gs.take n) = (keysOf gs).take n := by
  simp [keysOf, List.map_take]

/-- `keysOf` commutes with `drop`. -/
theorem keysOf_drop (n : Nat) (gs : List PipeWithVersions) :
    keysOf (gs.drop n) = (keysOf gs).drop n := by
  simp [keysOf, List.map_drop]

/-- One grouping step: a known key leaves the key list unchanged, a new key is
appended at the end. -/
theorem addRow_keys (acc : List PipeWithVersions) (r : JoinedRow) :
    keysOf (PipeRepo.addRow acc r) =
      if r.pipe.id ∈ keysOf acc then keysOf acc else keysOf acc ++ [r.pipe.id] := by
  simp only [PipeRepo.addRow, keysOf]
  by_cases hmem : (acc.any (fun g => g.pipe.id == r.pipe.id)) = true
  · rw [if_pos hmem]
    have hin : r.pipe.id ∈ acc.map (fun g => g.pipe.id) := by
      obtain ⟨g, hg, hgid⟩ := List.any_eq_true.mp hmem
      exact List.mem_map.mpr ⟨g, hg, by simpa using hgid⟩
    rw [if_pos hin, List.map_map]
    apply List.map_congr_left
    intro g hg
    by_cases hid : g.pipe.id = r.pipe.id
    · simp [hid]
    · simp [hid]
  · rw [if_neg hmem]
    have hout : r.pipe.id ∉ acc.map (fun g => g.pipe.id) := by
      intro hc
      obtain ⟨g, hg, hgid⟩ := List.mem_map.mp hc
      exact hmem (List.any_eq_true.mpr ⟨g, hg, by simp [hgid]⟩)
    rw [if_neg hout, List.map_append]
    rfl

/-- Unrolling the grouping fold from the right. -/
theorem groupRows_append (xs : List JoinedRow) (x : JoinedRow) :
    PipeRepo.groupRows (xs ++ [x]) = PipeRepo.addRow (PipeRepo.groupRows xs) x := by
  simp [PipeRepo.groupRows, List.foldl_append]

/-- Unrolling first-occurrence deduplication from the right. -/
theorem firstOccur_append (l : List Nat) (x : Nat) :
    firstOccur (l ++ [x]) =
      if x ∈ firstOccur l then firstOccur l else firstOccur l ++ [x] := by
  simp [firstOccur, List.foldl_append]

/-- The grouped entries' pipe ids are the first-occurrence deduplication of
the rows' pipe ids, in arrival order. -/
theorem groupRows_keys (rows : List JoinedRow) :
    keysOf (PipeRepo.groupRows rows) = firstOccur (rows.map (fun r => r.pipe.id)) := by
  induction rows using List.reverseRecOn with
  | nil => rfl
  | append_singleton xs x ih =>
    rw [groupRows_append, addRow_keys, ih, List.map_append, List.map_singleton,
        firstOccur_append]

/-- Membership in the deduplicated list is membership in the original. -/
theorem mem_firstOccur (l : List Nat) (x : Nat) : x ∈ firstOccur l ↔ x ∈ l := by
  induction l using List.reverseRecOn with
  | nil => simp [firstOccur]
  | append_singleton xs y ih =>
    rw [firstOccur_append]
    by_cases hy : y ∈ firstOccur xs
    · rw [if_pos hy]
      simp only [List.mem_append, List.mem_singleton, ih]
      constructor
      · exact Or.inl
      · rintro (hx | hx)
        · exact hx
        · subst hx; exact ih.mp hy
    · rw [if_neg hy]
      simp [ih]

/-- Every processed row's pipe id is a key of the grouped list. -/
theorem mem_keys_groupRows (rows : List JoinedRow) (r : JoinedRow) (h : r ∈ rows) :
    r.pipe.id ∈ keysOf (PipeRepo.groupRows rows) := by
  rw [groupRows_keys, mem_firstOccur]
  exact List.mem_map.mpr ⟨r, h, rfl⟩

/-- Each grouped entry collects exactly the version parts of its pipe's rows,
in the order the rows arrived. -/
theorem groupRows_versions (rows : List JoinedRow) :
    ∀ g ∈ PipeRepo.groupRows rows,
      g.versions = (rows.filter (fun r => r.pipe.id == g.pipe.id)).filterMap
        (fun r => r.ver) := by
  induction rows using List.reverseRecOn with
  | nil =>
    intro g hg
    exact absurd hg (by simp [PipeRepo.groupRows])
  | append_singleton xs x ih =>
    intro g hg
    have hMatch : (match x.ver with | some v => [v] | none => ([] : List Version)) =
        [x].filterMap (fun r => r.ver) := by
      cases hxv : x.ver <;> simp [hxv]
    rw [groupRows_append] at hg
    simp only [PipeRepo.addRow] at hg
    by_cases hx : ((PipeRepo.groupRows xs).any (fun q => q.pipe.id == x.pipe.id)) = true
    · rw [if_pos hx] at hg
      obtain ⟨g0, hg0, hup⟩ := List.mem_map.mp hg
      by_cases hid : (g0.pipe.id == x.pipe.id) = true
      · rw [if_pos hid] at hup
        subst hup
        have hgid : g0.pipe.id = x.pipe.id := by simpa using hid
        have hpx : (x.pipe.id == g0.pipe.id) = true := by simp [hgid]
        rw [List.filter_append, List.filterMap_append]
        show g0.versions ++ _ = _
        have hsingle : [x].filter (fun r => r.pipe.id == g0.pipe.id) = [x] := by
          simp [List.filter, hpx]
        rw [hsingle, ← ih g0 hg0, hMatch]
      · rw [if_neg hid] at hup
        subst hup
        have hne : ¬(x.pipe.id = g0.pipe.id) := by
          intro hc
          rw [← hc] at hid
          simp at hid
        have hpx : (x.pipe.id == g0.pipe.id) = false := by
          simpa using hne
        rw [List.filter_append]
        have hsingle : [x].filter (fun r => r.pipe.id == g0.pipe.id) = [] := by
          simp [List.filter, hpx]
        rw [hsingle, List.append_nil]
        exact ih g0 hg0
    · rw [if_neg hx] at hg
      rcases List.mem_append.mp hg with hg' | hg'
      · have hpx : (x.pipe.id == g.pipe.id) = false := by
          by_contra hc
          have hceq : (x.pipe.id == g.pipe.id) = true := by
            cases h' : (x.pipe.id == g.pipe.id) with
            | true => rfl
            | false => exact absurd h' hc
          have hxg : x.pipe.id = g.pipe.id := by simpa using hceq
          exact hx (List.any_eq_true.mpr ⟨g, hg', by simp [hxg]⟩)
        rw [List.filter_append]
        have hsingle : [x].filter (fun r => r.pipe.id == g.pipe.id) = [] := by
          simp [List.filter, hpx]
        rw [hsingle, List.append_nil]
        exact ih g hg'
      · have hgx : g = { pipe := x.pipe, versions :=
            (match x.ver with | some v => [v] | none => ([] : List Version)) } := by
          simpa using hg'
        subst hgx
        have hfilxs : xs.filter (fun r => r.pipe.id == x.pipe.id) = [] := by
          apply List.filter_eq_nil_iff.mpr
          intro r hr hpr
          have hrid : r.pipe.id = x.pipe.id := by simpa using hpr
          have hkey := mem_keys_groupRows xs r hr
          obtain ⟨q, hq, hqid⟩ := List.mem_map.mp (by simpa [keysOf] using hkey)
          exact absurd (List.any_eq_true.mpr ⟨q, hq, by simp [hqid, hrid]⟩) hx
        show (match x.ver with | some v => [v] | none => ([] : List Version)) = _
        rw [List.filter_append]
        have hsingle : [x].filter
            (fun r => r.pipe.id ==
              ({ pipe := x.pipe, versions :=
                 (match x.ver with | some v => [v] | none => ([] : List Version)) }
                : PipeWithVersions).pipe.id) = [x] := by
          simp [List.filter]
        rw [hsingle]
        show _ = ((xs.filter (fun r => r.pipe.id == x.pipe.id)) ++ [x]).filterMap
          (fun r => r.ver)
        rw [hfilxs, List.nil_append, ← hMatch]

/-- C9 amended: `findManyWithVersions` groups the fetched rows by pipe id in
arrival order — the returned pipe ids are a `(page, limit)` slice of the
first-occurrence deduplication of the fetched rows' pipe ids, and each
returned entry's `versions` are exactly its pipe's fetched rows in arrival
order.  The fetch itself, however, is already row-level paginated
(`fetchedRows` takes `limit*10` rows after dropping `(page-1)*limit*10`), so
the slice is applied on top of a row-offset window and pages beyond the first
do not partition the grouped pipe list of the whole table. -/
theorem c9_amended_grouping (db : DB) (o : PipeQueryOptions) :
    keysOf (PipeRepo.findManyWithVersions db o) =
      ((firstOccur ((PipeRepo.fetchedRows db o).map (fun r => r.pipe.id))).drop
          ((o.page.getD 1 - 1) * o.limit.getD 10)).take (o.limit.getD 10) ∧
    ∀ g ∈ PipeRepo.findManyWithVersions db o,
      g.versions = ((PipeRepo.fetchedRows db o).filter
          (fun r => r.pipe.id == g.pipe.id)).filterMap (fun r => r.ver) := by
  constructor
  · simp only [PipeRepo.findManyWithVersions]
    rw [keysOf_take, keysOf_drop, groupRows_keys]
  · intro g hg
    simp only [PipeRepo.findManyWithVersions] at hg
    exact groupRows_versions _ g
      (List.mem_of_mem_drop (List.mem_of_mem_take hg))

/-- C9 amended witness: on `dbC9` with `limit = 1`, page 1 returns the grouped
entry of pipe 1, whose versions are exactly pipe 1's fetched rows. -/
theorem c9_amended_witness :
    g1c ∈ PipeRepo.findManyWithVersions dbC9 { page := some 1, limit := some 1 } ∧
    g1c.versions = ((PipeRepo.fetchedRows dbC9 { page := some 1, limit := some 1 }).filter
        (fun r => r.pipe.id == g1c.pipe.id)).filterMap (fun r => r.ver) :=
  ⟨by decide,
   (c9_amended_grouping dbC9 { page := some 1, limit := some 1 }).2 g1c (by decide)⟩
